import Mathlib

/-!
Shallow embedding of the conversational CRUD backend: the protected-field
guard (`sanitizeUpdates`), the component update compiler (`updateComponent`),
the criteria-to-predicate translator (`searchComponent`), the design
sanitizer and design update compiler (`sanitizeDesignUpdates`,
`updateDesign`), the security-group attach/detach operations, and the
dispatcher's pending-selection state machine (`handleMessage`,
`extractOperationDetails`).

JavaScript objects are modelled as association lists in insertion order
(the iteration order of `for ... in` / `Object.entries` for string keys).
-/

/-- A JSON value as produced by the JS layer.  JS `typeof` classifies
`null` and arrays as "object"; the model keeps them as separate
constructors and the `typeof`-test is a separate predicate. -/
inductive JsonVal where
  | str (s : String)
  | num (n : Int)
  | bool (b : Bool)
  | null
  | obj (fields : List (String × JsonVal))
  | arr (elems : List JsonVal)

/-- JS `typeof value === "object"`: true for plain objects, arrays and
`null`. -/
def jsTypeofObject : JsonVal → Bool
  | .obj _ => true
  | .arr _ => true
  | .null => true
  | _ => false

/-- Lookup in an association list (JS property read `m[k]`;
`none` models `undefined`). -/
def alookup {α : Type} (m : List (String × α)) (k : String) : Option α :=
  match m with
  | [] => none
  | (k', v) :: rest => if k' = k then some v else alookup rest k

/-- JS property write `m[k] = v`: replaces the value of an existing key in
place, otherwise appends the key at the end (insertion order). -/
def ainsert {α : Type} (m : List (String × α)) (k : String) (v : α) :
    List (String × α) :=
  match m with
  | [] => [(k, v)]
  | (k', v') :: rest =>
    if k' = k then (k', v) :: rest else (k', v') :: ainsert rest k v

/-! ### Kernel-computable string helpers (JS `split('.')`, `trim`,
`toLowerCase`), defined over the character list so concrete witnesses
evaluate by `decide`/`rfl`. -/

/-- JS `key.split('.')` (no limit): splits on every dot, keeping empty
segments. -/
def splitOnDotAux : List Char → List Char → List String
  | [], acc => [String.mk acc.reverse]
  | '.' :: rest, acc => String.mk acc.reverse :: splitOnDotAux rest []
  | c :: rest, acc => splitOnDotAux rest (c :: acc)

def splitOnDot (s : String) : List String :=
  splitOnDotAux s.toList []

/-- JS `parts.join('.')`. -/
def joinDots : List String → String
  | [] => ""
  | [s] => s
  | s :: rest => s ++ "." ++ joinDots rest

/-- JS `String.prototype.trim` (ASCII whitespace suffices here). -/
def jsTrim (s : String) : String :=
  String.mk
    (((s.toList.dropWhile (fun c => c.isWhitespace)).reverse.dropWhile
      (fun c => c.isWhitespace)).reverse)

/-- JS `String.prototype.toLowerCase` (ASCII letters suffice here). -/
def jsToLower (s : String) : String :=
  String.mk (s.toList.map Char.toLower)

/-! ## Protected-path guard — `src/sanitizeUpdates.js` -/

/-- `protectedFields` from sanitizeUpdates.js lines 1-6. -/
def protectedFields : List String :=
  ["clientId", "componentId", "component_type", "library_id"]

/-- The accumulated dotted prefixes of a key, in the order the source loop
visits them: for `"a.b.c"` this is `["a", "a.b", "a.b.c"]`
(`path.push(part); path.join(".")`). -/
def dottedPrefixes (key : String) : List String :=
  let parts := splitOnDot key
  (List.range parts.length).map (fun i => joinDots (parts.take (i + 1)))

/-- The inner loop of `sanitizeUpdates`: some accumulated dotted prefix of
the key is a protected field. -/
def hasProtectedPrefix (key : String) : Bool :=
  (dottedPrefixes key).any (fun p => protectedFields.contains p)

/-- The condition under which `sanitizeUpdates` rejects a key: either the
whole key is a protected field (first check, line 16) or one of its dotted
prefixes is (lines 22-33). -/
def isProtectedKey (key : String) : Bool :=
  protectedFields.contains key || hasProtectedPrefix key

/-- `sanitizeUpdates` (sanitizeUpdates.js lines 11-41): walks the raw
update map once; protected keys go to `rejected`, all others are copied to
`sanitized` unchanged. -/
def sanitizeUpdates (rawUpdates : List (String × JsonVal)) :
    List (String × JsonVal) × List String :=
  match rawUpdates with
  | [] => ([], [])
  | (key, v) :: rest =>
    let (s, r) := sanitizeUpdates rest
    if protectedFields.contains key then (s, key :: r)
    else if hasProtectedPrefix key then (s, key :: r)
    else ((key, v) :: s, r)

/-! ## Update compiler — `src/chatController.js` `updateComponent`
(the sanitizing version, lines 233-344) -/

/-- One compiled SET instruction of the component update write.  The three
variants correspond to the three branches of the loop at
chatController.js lines 284-315. -/
inductive WriteInstr where
  | mergeProps (patch : JsonVal)
  | setDocKey (column jsonKey : String) (value : JsonVal)
  | setScalar (column : String) (value : JsonVal)

/-- The branch taken for one entry of the update map
(chatController.js lines 288-313):
`key === 'props' && typeof value === 'object'` → jsonb merge;
`key.includes('.')` → `jsonb_set` on the first two dot-segments;
otherwise → direct column assignment. -/
def compileEntry (key : String) (value : JsonVal) : WriteInstr :=
  if key = "props" && jsTypeofObject value then .mergeProps value
  else if key.toList.contains '.' then
    let parts := splitOnDot key
    .setDocKey (parts.headD "") ((parts.drop 1).headD "") value
  else .setScalar key value

/-- All SET instructions of the write, in map iteration order. -/
def compileUpdates (updates : List (String × JsonVal)) : List WriteInstr :=
  updates.map (fun p => compileEntry p.1 p.2)

/-- The SET instructions `updateComponent` executes for a raw update map:
the guard runs first (line 259), the loop compiles only the sanitized
entries (line 265 reassigns `updates = sanitized`). -/
def updateComponentInstrs (rawUpdates : List (String × JsonVal)) :
    List WriteInstr :=
  compileUpdates (sanitizeUpdates rawUpdates).1

/-! ## SQL text and bound parameters of the update write -/

/-- A bound query parameter: either `JSON.stringify(value)` (jsonb
branches) or the raw value (direct column branch) or a string
(identifiers and search values). -/
inductive SqlParam where
  | jsonOf (v : JsonVal)
  | plain (v : JsonVal)
  | strParam (s : String)

/-- The SQL text of one SET clause (chatController.js lines 289-310),
`n` being the 1-based placeholder number. -/
def sqlOfInstr (n : Nat) : WriteInstr → String
  | .mergeProps _ =>
    "props = COALESCE(props, \x27\x7b\x7d\x27::jsonb) || $"
      ++ toString n ++ "::jsonb"
  | .setDocKey col jsonKey _ =>
    col ++ " = jsonb_set(COALESCE(" ++ col
      ++ ", \x27\x7b\x7d\x27::jsonb), \x27\x7b" ++ jsonKey
      ++ "\x7d\x27, $" ++ toString n ++ "::jsonb, true)"
  | .setScalar col _ =>
    col ++ " = $" ++ toString n

/-- The parameter pushed for one SET clause. -/
def paramOfInstr : WriteInstr → SqlParam
  | .mergeProps v => .jsonOf v
  | .setDocKey _ _ v => .jsonOf v
  | .setScalar _ v => .plain v

/-- The SET clause strings in order, numbering placeholders from `n`
(`idx` starts at 3 in the source; it increments once per entry). -/
def setClauseStrings (n : Nat) : List WriteInstr → List String
  | [] => []
  | i :: rest => sqlOfInstr n i :: setClauseStrings (n + 1) rest

/-- The full SQL text of the component update.  The template literal's
line breaks and indentation are normalized to single spaces; the part
that varies with the input is the joined SET clause list. -/
def updateSqlText (updates : List (String × JsonVal)) : String :=
  "UPDATE components SET "
    ++ String.intercalate ", " (setClauseStrings 3 (compileUpdates updates))
    ++ " WHERE client_id = $1 AND component_id = $2 RETURNING *"

/-- The bound parameter list of the component update
(`values = [clientId, componentId]` then one push per entry). -/
def updateSqlParams (clientId componentId : String)
    (updates : List (String × JsonVal)) : List SqlParam :=
  .strParam clientId :: .strParam componentId
    :: (compileUpdates updates).map paramOfInstr

/-! ## Criteria-to-predicate translator — `src/searchTool.js` -/

/-- One compiled filter predicate of `searchComponent`
(searchTool.js lines 12-25). -/
inductive SearchClause where
  | jsonEq (col jsonKey : String)
  | eqCol (col : String)
  | ilikeCol (col : String)

/-- The predicate built for one criteria key: dotted keys filter the
named JSON sub-key; `component_type` is the single exact-match key;
everything else uses `ILIKE`. -/
def clauseForCriterion (key : String) : SearchClause :=
  if key.toList.contains '.' then
    let parts := splitOnDot key
    .jsonEq (parts.headD "") ((parts.drop 1).headD "")
  else if key = "component_type" then .eqCol key
  else .ilikeCol key

/-- All predicates of a criteria map, in iteration order. -/
def searchClauses (criteria : List (String × String)) : List SearchClause :=
  criteria.map (fun p => clauseForCriterion p.1)

/-- The SQL text of one search clause, `n` the placeholder number. -/
def sqlOfSearchClause (n : Nat) : SearchClause → String
  | .jsonEq col jsonKey =>
    col ++ "->>\x27" ++ jsonKey ++ "\x27 = $" ++ toString n
  | .eqCol col => col ++ "::text = $" ++ toString n
  | .ilikeCol col => col ++ "::text ILIKE $" ++ toString n

/-- The search clause strings, numbering placeholders from `n`
(`idx` starts at 2). -/
def searchClauseStrings (n : Nat) : List SearchClause → List String
  | [] => []
  | c :: rest => sqlOfSearchClause n c :: searchClauseStrings (n + 1) rest

/-- The full SQL text of the component search
(searchTool.js lines 27-29). -/
def searchSqlText (criteria : List (String × String)) : String :=
  "SELECT component_id, component_type, props FROM components WHERE "
    ++ String.intercalate " AND "
      ("client_id = $1" :: searchClauseStrings 2 (searchClauses criteria))

/-- The bound parameter list of the search:
`values = [clientId]` then one value per criterion. -/
def searchSqlParams (clientId : String)
    (criteria : List (String × String)) : List String :=
  clientId :: criteria.map (fun p => p.2)

/-! ## SQL pattern-matching semantics (`ILIKE`) and the spec's
`containsCI` predicate -/

/-- SQL `LIKE`/`ILIKE` pattern matching over character lists, compared
case-insensitively: `%` matches any run (tried as every possible drop of
the text), `_` any single character, and the pattern must cover the
whole text. -/
def likeMatch : List Char → List Char → Bool
  | [], ts => ts.isEmpty
  | '%' :: ps, ts =>
    (List.range (ts.length + 1)).any (fun j => likeMatch ps (ts.drop j))
  | '_' :: ps, ts =>
    match ts with
    | [] => false
    | _ :: ts' => likeMatch ps ts'
  | p :: ps, ts =>
    match ts with
    | [] => false
    | t :: ts' => (p.toLower == t.toLower) && likeMatch ps ts'

/-- Postgres `text ILIKE pattern`. -/
def ilikeMatches (pattern text : String) : Bool :=
  likeMatch pattern.toList text.toList

/-- Modelled from the spec: the `containsCI` comparator of §3/§4.4 — a
case-insensitive substring (contains) test of the criteria value against
the column text.  Used only to compare the spec's words with the
predicate the source builds. -/
def listStartsWith : List Char → List Char → Bool
  | [], _ => true
  | _ :: _, [] => false
  | n :: ns, h :: hs => (n == h) && listStartsWith ns hs

/-- `needle` occurs as a contiguous run inside `hay`. -/
def listContainsRun (needle : List Char) : List Char → Bool
  | [] => listStartsWith needle []
  | h :: hs => listStartsWith needle (h :: hs) || listContainsRun needle hs

def containsCISpec (value text : String) : Bool :=
  listContainsRun ((jsToLower value).toList) ((jsToLower text).toList)

/-- A stored row as the predicates see it: the `::text` rendering of its
scalar columns and the key/value maps of its jsonb columns. -/
structure Row where
  scalars : List (String × String)
  jsons : List (String × List (String × String))

/-- Evaluation of one compiled search predicate against a row with the
engine's comparison semantics (`=` exact, `ILIKE` pattern match,
`->>` sub-key extraction then `=`). -/
def evalSearchClause (r : Row) (value : String) : SearchClause → Bool
  | .jsonEq col jsonKey =>
    match alookup r.jsons col with
    | some doc => alookup doc jsonKey == some value
    | none => false
  | .eqCol col => alookup r.scalars col == some value
  | .ilikeCol col =>
    match alookup r.scalars col with
    | some t => ilikeMatches value t
    | none => false

/-! ## Design field resolution — `src/designSanitize.js` -/

/-- `designUpdateFieldMap` (designSanitize.js lines 6-88), the design
schema's synonym table from raw field names to canonical dotted paths. -/
def designUpdateFieldMap : List (String × String) :=
  [ ("layout", "header_design.Layout"),
    ("banner mediaurl", "header_design.banner_mediaUrl"),
    ("banner image url", "header_design.banner_image_url"),
    ("banner library id", "header_design.banner_library_id"),
    ("banner source url", "header_design.banner_source_url"),
    ("social icon style", "header_design.social-icon-style"),
    ("social-icon-style", "header_design.social-icon-style"),
    ("socialiconstyle", "header_design.social-icon-style"),
    ("social_icon_style", "header_design.social-icon-style"),
    ("socialIconStyle", "header_design.social-icon-style"),
    ("appearance title", "appearance.title"),
    ("appearance background", "appearance.background"),
    ("video type", "appearance.video_type"),
    ("image title", "appearance.image_title"),
    ("video title", "appearance.video_title"),
    ("media source", "appearance.media_source"),
    ("appearance background image url", "appearance.background_image_url"),
    ("appearance background thumbnail", "appearance.background_thumbnail"),
    ("appearance background video url", "appearance.background_video_url"),
    ("appearance background library id", "appearance.background_library_id"),
    ("page filter", "page_props.filter"),
    ("page animation", "page_props.animation"),
    ("page background", "page_props.background"),
    ("page color count", "page_props.color_count"),
    ("page gradient type", "page_props.gradient_type"),
    ("page animation shapes", "page_props.animation_shapes"),
    ("header text icons", "page_props.header-text-icons"),
    ("animation position", "page_props.animation_position"),
    ("page background mediaurl", "page_props.background_mediaUrl"),
    ("link text color", "link_block.text"),
    ("link background color", "link_block.background"),
    ("card text color", "card_block.text"),
    ("card background color", "card_block.background"),
    ("card button text color", "card_block.button-text"),
    ("card button background color", "card_block.button-background"),
    ("desktop background type", "desktop_background.type"),
    ("desktop\x27s background type", "desktop_background.type"),
    ("desktop\x27s background", "desktop_background.type"),
    ("desktop background gradient type", "desktop_background.type"),
    ("gradient of desktop background", "desktop_background.gradient_type"),
    ("gradient desktop background", "desktop_background.gradient_type"),
    ("gradient type desktop background", "desktop_background.gradient_type"),
    ("card style", "card_design.style"),
    ("card radius", "card_design.radius"),
    ("card-radius", "card_design.radius"),
    ("cardradius", "card_design.radius"),
    ("card_radius", "card-radius"),
    ("cardRadius", "card-radius"),
    ("button style", "button_design.style"),
    ("button radius", "button_design.radius"),
    ("title font", "text_props.titles"),
    ("subtitle font", "text_props.subtitles") ]

/-- Key resolution of `sanitizeDesignUpdates` (designSanitize.js lines
99-105): exact table lookup first, then the Fuse fuzzy search.  The fuzzy
matcher (`designFuse.search`, Fuse.js with threshold 0.3 over the table's
keys) is an external library; it is a parameter returning the best-match
table key, or `none` when no candidate scores within the threshold. -/
def resolveDesignKey (fuzzy : String → Option String) (key : String) :
    Option String :=
  match alookup designUpdateFieldMap key with
  | some m => some m
  | none =>
    match fuzzy key with
    | some item => alookup designUpdateFieldMap item
    | none => none

/-- The nested-object builder of `sanitizeDesignUpdates` (lines 108-115):
descends along the dotted path, keeping an existing object at an
intermediate key (`curr[p] = curr[p] || {}`) and creating `{}` otherwise,
then assigns the value at the last segment. -/
def setPath (m : List (String × JsonVal)) :
    List String → JsonVal → List (String × JsonVal)
  | [], _ => m
  | [k], v => ainsert m k v
  | k :: k2 :: rest, v =>
    let sub := match alookup m k with
      | some (JsonVal.obj o) => o
      | _ => []
    ainsert m k (JsonVal.obj (setPath sub (k2 :: rest) v))

/-- `sanitizeDesignUpdates` (designSanitize.js lines 95-120): resolves
each raw key and merges the value into a nested object at the canonical
dotted path; a key that resolves to nothing is skipped
(`if (!mappedKey) continue; // skip unknown fields`). -/
def sanitizeDesignStep (fuzzy : String → Option String)
    (acc : List (String × JsonVal)) (p : String × JsonVal) :
    List (String × JsonVal) :=
  match resolveDesignKey fuzzy p.1 with
  | none => acc
  | some mk => setPath acc (splitOnDot mk) p.2

def sanitizeDesignUpdates (fuzzy : String → Option String)
    (rawUpdates : List (String × JsonVal)) : List (String × JsonVal) :=
  rawUpdates.foldl (sanitizeDesignStep fuzzy) []

/-! ## Design update compiler — `src/designTools.js` `updateDesign` -/

/-- `JSONB_FIELDS` (designTools.js lines 200-211). -/
def JSONB_FIELDS : List String :=
  [ "header_design", "color_palate", "appearance", "page_props",
    "link_block", "card_block", "desktop_background", "card_design",
    "button_design", "text_props" ]

/-- The merge instructions of `updateDesign` (designTools.js lines
230-239): one `field = COALESCE(field, empty jsonb) || patch` clause per
jsonb field present in the update map, in the fixed field order.  Each
pair is (column, pushed patch value). -/
def updateDesignInstrs (designUpdates : List (String × JsonVal)) :
    List (String × JsonVal) :=
  JSONB_FIELDS.filterMap
    (fun f => (alookup designUpdates f).map (fun v => (f, v)))

/-- `updateDesign` rejects an update map that touches no jsonb field
(designTools.js lines 241-243). -/
def updateDesign (designUpdates : List (String × JsonVal)) :
    Except String (List (String × JsonVal)) :=
  let instrs := updateDesignInstrs designUpdates
  if instrs.isEmpty then .error "No valid design fields to update."
  else .ok instrs

/-- Postgres jsonb `||`: shallow merge of two objects, right side wins. -/
def jsonbConcat (base patch : List (String × JsonVal)) :
    List (String × JsonVal) :=
  patch.foldl (fun acc p => ainsert acc p.1 p.2) base

/-- The object fields of a jsonb value; a missing column is coalesced to
the empty object (`COALESCE(field, empty jsonb)`). -/
def objFields : Option JsonVal → List (String × JsonVal)
  | some (.obj o) => o
  | _ => []

/-- Applying one merge instruction to a stored design row. -/
def applyDesignInstr (row : List (String × JsonVal))
    (instr : String × JsonVal) : List (String × JsonVal) :=
  ainsert row instr.1
    (.obj (jsonbConcat (objFields (alookup row instr.1))
      (objFields (some instr.2))))

/-- Applying a compiled design write: all clauses of the single UPDATE
statement, in order. -/
def applyDesignWrite (row : List (String × JsonVal))
    (instrs : List (String × JsonVal)) : List (String × JsonVal) :=
  instrs.foldl applyDesignInstr row

/-! ## Record-schema field resolution — `src/fuseConfig.js` and
`src/clarifierAgent.js` -/

/-- `updateFieldMap` (fuseConfig.js lines 3-21). -/
def updateFieldMap : List (String × String) :=
  [ ("title", "props.title"),
    ("heading", "props.title"),
    ("main heading", "props.title"),
    ("url", "link_props.url"),
    ("link", "link_props.url"),
    ("link url", "link_props.url"),
    ("link address", "link_props.url"),
    ("text alignment", "layout_json.textalignment"),
    ("textalign", "layout_json.textalignment"),
    ("text-alignment", "layout_json.textalignment"),
    ("textalignement", "layout_json.textalignment"),
    ("alignment of text", "layout_json.textalignment") ]

/-- `normalizeCriteria` (clarifierAgent.js lines 32-49): a key the fuzzy
search resolves is replaced by its canonical path; an unrecognized key is
kept as-is with a warning (`using as-is`).  The Fuse matcher (threshold
0.4 over `updateFieldMap`'s keys, fed the lowercased key) is the `fuzzy`
parameter.  When the matcher returns a corpus item missing from the table
(impossible for the real corpus), the JS `normalized[undefined]` write is
modelled as the literal key "undefined". -/
def normalizeCriteriaStep (fuzzy : String → Option String)
    (acc : List (String × String)) (p : String × String) :
    List (String × String) :=
  match fuzzy (jsToLower p.1) with
  | some canonical =>
    ainsert acc ((alookup updateFieldMap canonical).getD "undefined") p.2
  | none => ainsert acc p.1 p.2

def normalizeCriteria (fuzzy : String → Option String)
    (rawCriteria : List (String × String)) : List (String × String) :=
  rawCriteria.foldl (normalizeCriteriaStep fuzzy) []

/-- The update normalization inside `callEditorTools`
(clarifierAgent.js lines 532-543): same resolution over the raw update
map, unresolved keys passed through as-is. -/
def editorNormalizeStep (fuzzy : String → Option String)
    (acc : List (String × JsonVal)) (p : String × JsonVal) :
    List (String × JsonVal) :=
  match fuzzy (jsToLower p.1) with
  | some canonical =>
    ainsert acc ((alookup updateFieldMap canonical).getD "undefined") p.2
  | none => ainsert acc p.1 p.2

def editorNormalizeUpdates (fuzzy : String → Option String)
    (rawUpdates : List (String × JsonVal)) : List (String × JsonVal) :=
  rawUpdates.foldl (editorNormalizeStep fuzzy) []

/-! ## Dispatcher pending-selection state machine — `src/supervisor.js` -/

/-- The digit run at the head of a character list, if nonempty. -/
def parseDigitRun (cs : List Char) : Option Nat :=
  let digits := cs.takeWhile (fun c => c.isDigit)
  if digits.isEmpty then none
  else some (digits.foldl (fun acc c => acc * 10 + (c.toNat - 48)) 0)

/-- The value of one hexadecimal digit. -/
def hexDigitVal (c : Char) : Option Nat :=
  if c.isDigit then some (c.toNat - 48)
  else if 'a' ≤ c && c ≤ 'f' then some (c.toNat - 87)
  else if 'A' ≤ c && c ≤ 'F' then some (c.toNat - 55)
  else none

/-- The hex digit run at the head of a character list, if nonempty. -/
def parseHexRun (cs : List Char) : Option Nat :=
  let digits := cs.takeWhile (fun c => (hexDigitVal c).isSome)
  if digits.isEmpty then none
  else some (digits.foldl
    (fun acc c => acc * 16 + ((hexDigitVal c).getD 0)) 0)

/-- JS `parseInt(s)` with no radix argument: skip leading whitespace,
optional sign, auto-detected `0x`/`0X` hex prefix, then the longest run
of digits; `none` models `NaN` (no digits at all). -/
def parseIntJS (s : String) : Option Int :=
  let cs := s.toList.dropWhile (fun c => c.isWhitespace)
  let (sign, cs) : Int × List Char :=
    match cs with
    | '-' :: rest => (-1, rest)
    | '+' :: rest => (1, rest)
    | _ => (1, cs)
  match cs with
  | '0' :: 'x' :: rest => (parseHexRun rest).map (fun n => sign * n)
  | '0' :: 'X' :: rest => (parseHexRun rest).map (fun n => sign * n)
  | _ => (parseDigitRun cs).map (fun n => sign * n)

/-- The pending operation stored by the dispatcher, as built by
`extractOperationDetails` (supervisor.js lines 373-384) and consumed by
the selection branch of `handleMessage`. -/
structure PendingOp where
  clientId : Option String
  operation : String
  updates : List (String × JsonVal)
  componentIds : List String

/-- The reply of the invalid-selection branch (supervisor.js line 245). -/
def invalidSelectionReply : String :=
  "Invalid selection. Please choose a valid number from the list."

/-- What the selection branch did with the turn. -/
inductive SelectionOutcome where
  | applied (componentId : String)
  | invalid (reply : String)

/-- The guard under which `handleMessage` enters its selection branch
(supervisor.js lines 207-211): a pending operation exists and its
candidate list has more than one element. -/
def inAwaitingSelection (pending : Option PendingOp) : Bool :=
  match pending with
  | some p => p.componentIds.length > 1
  | none => false

/-- The selection branch of `handleMessage` (supervisor.js lines
212-254): `parseInt(message.trim()) - 1` indexes the candidate list; in
range → the editor is invoked with the selected identifier and the
pending operation is cleared (`localPending = null`); otherwise the
invalid-selection reply is returned and the pending operation is kept
unchanged.  `NaN` (unparsable message) fails both range comparisons. -/
def selectionStep (p : PendingOp) (message : String) :
    SelectionOutcome × Option PendingOp :=
  match parseIntJS (jsTrim message) with
  | some n =>
    let i : Int := n - 1
    if 0 ≤ i ∧ i < (p.componentIds.length : Int) then
      (.applied (p.componentIds.getD i.toNat ""), none)
    else (.invalid invalidSelectionReply, some p)
  | none => (.invalid invalidSelectionReply, some p)

/-- The case-insensitive test of the regex `/update|change|modify/i`
(supervisor.js line 376). -/
def matchesUpdateRegex (text : String) : Bool :=
  containsCISpec "update" text || containsCISpec "change" text
    || containsCISpec "modify" text

/-- Attempt to match `/client\s+(\d+)/i` at the head of the list: the six
letters of "client" case-insensitively, at least one whitespace
character, then a nonempty digit run (the capture). -/
def clientIdAt (cs : List Char) : Option String :=
  match cs with
  | c1 :: c2 :: c3 :: c4 :: c5 :: c6 :: rest =>
    if String.mk ([c1, c2, c3, c4, c5, c6].map Char.toLower) = "client" then
      match rest with
      | r :: _ =>
        if r.isWhitespace then
          let afterWs := rest.dropWhile (fun c => c.isWhitespace)
          let digits := afterWs.takeWhile (fun c => c.isDigit)
          if digits.isEmpty then none else some (String.mk digits)
        else none
      | [] => none
    else none
  | _ => none

/-- First match of `/client\s+(\d+)/i` anywhere in the text, returning
the captured digits. -/
def scanClientId : List Char → Option String
  | [] => none
  | c :: cs =>
    match clientIdAt (c :: cs) with
    | some d => some d
    | none => scanClientId cs

/-- `extractOperationDetails` (supervisor.js lines 373-384): regex pulls
of the client id and the operation verb; `updates` is always the empty
map and `componentIds` is always the empty list (the source comments
read "This would need more sophisticated parsing" and "Will be populated
by clarifier"). -/
def extractOperationDetails (text : String) : PendingOp :=
  { clientId := scanClientId text.toList
    operation := if matchesUpdateRegex text then "update" else "get"
    updates := []
    componentIds := [] }

/-! ## Design tool node — `src/supervisor.js` `callDesignTools`
(lines 530-577) -/

/-- A tool call carried on the model's last message. -/
inductive DesignToolCall where
  | getClientDesign (clientId : String)
  | updateDesign (clientId : String) (designUpdates : List (String × JsonVal))
  | getQAForClient (clientId : String)
  | other (name : String)

/-- The observable effect of executing one tool call. -/
inductive DesignEffect where
  | fetchedDesign (clientId : String)
  | wroteDesign (clientId : String) (designUpdates : List (String × JsonVal))
  | fetchedQA (clientId : String)
  | failed (name : String)

/-- A message of the agent state, as `callDesignTools` sees it. -/
structure AgentMessage where
  role : String
  content : String
  toolCalls : List DesignToolCall

/-- Execution of one tool call (supervisor.js lines 545-564): an
`updateDesign` call runs the store write immediately; an unknown name
throws and is converted to a failure result. -/
def effectOfToolCall : DesignToolCall → DesignEffect
  | .getClientDesign c => .fetchedDesign c
  | .updateDesign c u => .wroteDesign c u
  | .getQAForClient c => .fetchedQA c
  | .other n => .failed n

/-- `callDesignTools` (supervisor.js lines 530-577): reads only the LAST
message's tool calls and executes every one of them, in order. -/
def callDesignTools (messages : List AgentMessage) : List DesignEffect :=
  let toolCalls := ((messages.getLast?).map AgentMessage.toolCalls).getD []
  toolCalls.map effectOfToolCall

/-- The number of store writes performed by one run of the tool node. -/
def designWriteCount (effects : List DesignEffect) : Nat :=
  (effects.filter (fun e =>
    match e with
    | .wroteDesign _ _ => true
    | _ => false)).length

/-- Modelled from the spec: "apply only after an explicit affirmative
turn" (§4.4/§8) — a human turn whose trimmed, lowercased text is an
affirmative reply.  Used only to state the confirmation property the
spec claims; no such check exists in the source. -/
def isAffirmativeTurn (m : AgentMessage) : Bool :=
  m.role == "human" && jsToLower (jsTrim m.content) == "yes"

/-- Modelled from the spec: some earlier turn confirmed the change. -/
def hasConfirmedTurn (messages : List AgentMessage) : Bool :=
  messages.any isAffirmativeTurn

/-! ## Security-group attach/detach — `src/chatController.js`
`addSecurityGroup` / `removeSecurityGroup` -/

/-- The store tables the two operations touch: `security_groups`
(client_id, security_group_title, security_group_id),
`component_security_groups` (component_id, security_group_id) and the
`is_secured` flag of each component row. -/
structure SecurityStore where
  securityGroups : List (String × String × String)
  csg : List (String × String)
  isSecured : List (String × Bool)

/-- The uniform result object of the two operations. -/
structure OpResult where
  success : Bool
  message : Option String
  error : Option String
  is_secured : Option Bool

/-- `getSecurityGroupId` (chatController.js lines 346-363): the group id
of the titled group scoped to the client, if any. -/
def getSecurityGroupId (st : SecurityStore) (title clientId : String) :
    Option String :=
  (st.securityGroups.find?
    (fun r => r.1 == clientId && r.2.1 == title)).map (fun r => r.2.2)

/-- `addSecurityGroup` (chatController.js lines 365-440): missing
parameters and unknown group are failures; an attachment that already
exists returns a failure ("Security group already exists for this
component") without inserting; otherwise the pair is inserted and
`is_secured` set to true. -/
def addSecurityGroup (st : SecurityStore)
    (clientId componentId title : String) : OpResult × SecurityStore :=
  if clientId = "" || componentId = "" || title = "" then
    ({ success := false, message := none,
       error := some "clientId, componentId, and security_group_title are required",
       is_secured := none }, st)
  else
    match getSecurityGroupId st title clientId with
    | none =>
      ({ success := false, message := none,
         error := some ("Security group with title \"" ++ title
           ++ "\" does not exist for client " ++ clientId),
         is_secured := none }, st)
    | some gid =>
      if (componentId, gid) ∈ st.csg then
        ({ success := false, message := none,
           error := some "Security group already exists for this component",
           is_secured := none }, st)
      else
        ({ success := true,
           message := some "Security group added successfully",
           error := none, is_secured := some true },
         { st with csg := st.csg ++ [(componentId, gid)],
                   isSecured := ainsert st.isSecured componentId true })

/-- `removeSecurityGroup` (chatController.js lines 442-533): detaching a
group that is not attached returns a failure ("Security group does not
exist for this component") and leaves the store unchanged; otherwise the
row is deleted, the remaining attachments of the component recomputed,
and `is_secured` rewritten accordingly. -/
def removeSecurityGroup (st : SecurityStore)
    (clientId componentId title : String) : OpResult × SecurityStore :=
  if clientId = "" || componentId = "" || title = "" then
    ({ success := false, message := none,
       error := some "clientId, componentId, and security_group_title are required",
       is_secured := none }, st)
  else
    match getSecurityGroupId st title clientId with
    | none =>
      ({ success := false, message := none,
         error := some ("Security group with title \"" ++ title
           ++ "\" does not exist for client " ++ clientId),
         is_secured := none }, st)
    | some gid =>
      if (componentId, gid) ∈ st.csg then
        let csg' := st.csg.filter
          (fun r => !(r.1 == componentId && r.2 == gid))
        let remaining := csg'.filter (fun r => r.1 == componentId)
        ({ success := true,
           message := some "Security group removed successfully",
           error := none, is_secured := some (remaining.length > 0) },
         { st with csg := csg',
                   isSecured := ainsert st.isSecured componentId
                     (remaining.length > 0) })
      else
        ({ success := false, message := none,
           error := some "Security group does not exist for this component",
           is_secured := none }, st)

/-! ## Helper lemmas -/

theorem alookup_ainsert_self {α : Type} (m : List (String × α))
    (k : String) (v : α) : alookup (ainsert m k v) k = some v := by
  induction m with
  | nil => simp [ainsert, alookup]
  | cons hd tl ih =>
    obtain ⟨k', v'⟩ := hd
    by_cases h : k' = k
    · simp [ainsert, alookup, h]
    · simp [ainsert, alookup, h, ih]

theorem alookup_ainsert_ne {α : Type} (m : List (String × α))
    (k k' : String) (v : α) (hne : k' ≠ k) :
    alookup (ainsert m k v) k' = alookup m k' := by
  induction m with
  | nil =>
    simp only [ainsert, alookup]
    rw [if_neg (fun h => hne h.symm)]
  | cons hd tl ih =>
    obtain ⟨k0, v0⟩ := hd
    by_cases h : k0 = k
    · subst h
      simp only [ainsert, if_pos rfl, alookup]
      rw [if_neg (fun h => hne h.symm), if_neg (fun h => hne h.symm)]
    · simp only [ainsert, if_neg h, alookup]
      rw [ih]

theorem mem_keys_ainsert_self {α : Type} (m : List (String × α))
    (k : String) (v : α) : k ∈ (ainsert m k v).map Prod.fst := by
  induction m with
  | nil => simp [ainsert]
  | cons hd tl ih =>
    obtain ⟨k', v'⟩ := hd
    by_cases h : k' = k
    · simp [ainsert, h]
    · simp [ainsert, h, ih]

theorem mem_keys_ainsert {α : Type} (m : List (String × α))
    (a k : String) (v : α) (ha : a ∈ m.map Prod.fst) :
    a ∈ (ainsert m k v).map Prod.fst := by
  induction m with
  | nil => simp at ha
  | cons hd tl ih =>
    obtain ⟨k', v'⟩ := hd
    by_cases h : k' = k
    · simpa [ainsert, h] using ha
    · simp only [List.map_cons, List.mem_cons] at ha
      rcases ha with ha | ha
      · simp [ainsert, h, ha]
      · simp [ainsert, h, ih ha]

/-- `sanitizeUpdates` is exactly a partition of the raw map by the
protected-key test: kept entries unchanged and in order, rejected keys
in order. -/
theorem sanitizeUpdates_eq_partition (raw : List (String × JsonVal)) :
    sanitizeUpdates raw
      = (raw.filter (fun p => !isProtectedKey p.1),
         (raw.filter (fun p => isProtectedKey p.1)).map Prod.fst) := by
  induction raw with
  | nil => rfl
  | cons hd tl ih =>
    obtain ⟨key, v⟩ := hd
    simp only [sanitizeUpdates, ih, List.filter_cons, isProtectedKey]
    by_cases h1 : key ∈ protectedFields
    · simp [h1]
    · by_cases h2 : hasProtectedPrefix key = true
      · simp [h1, h2]
      · simp [h1, h2]

/-- **C1.** For every raw update map given to the update path
(`updateComponent`), every key equal to a protected field or having a
dotted prefix equal to a protected field (that is `isProtectedKey`, which
unfolds to membership of the key or one of its accumulated dotted
prefixes in `protectedFields`) lands in the rejected list — and only
those keys do — while the SET instructions of the executed SQL write are
compiled from exactly the remaining entries, keys and values unchanged
and in order.  Hence no protected key ever reaches a SET instruction. -/
theorem updateComponent_protected_guard (raw : List (String × JsonVal)) :
    (sanitizeUpdates raw).2
        = (raw.filter (fun p => isProtectedKey p.1)).map Prod.fst
      ∧ updateComponentInstrs raw
        = compileUpdates (raw.filter (fun p => !isProtectedKey p.1))
      ∧ (∀ k, isProtectedKey k = true
          ↔ (k ∈ protectedFields ∨ ∃ p ∈ dottedPrefixes k, p ∈ protectedFields)) := by
  refine ⟨?_, ?_, ?_⟩
  · rw [sanitizeUpdates_eq_partition]
  · unfold updateComponentInstrs
    rw [sanitizeUpdates_eq_partition]
  · intro k
    simp [isProtectedKey, hasProtectedPrefix, List.any_eq_true]

/-- Discriminator for the merge variant. -/
def isMergeInstr : WriteInstr → Bool
  | .mergeProps _ => true
  | _ => false

/-- The `props`-merge branch condition is false when its JS test fails. -/
theorem propsCond_eq_false {k : String} {v : JsonVal}
    (hnot : ¬(k = "props" ∧ jsTypeofObject v = true)) :
    (decide (k = "props") && jsTypeofObject v) = false := by
  rcases eq_or_ne k "props" with hk | hk
  · rcases Bool.eq_false_or_eq_true (jsTypeofObject v) with h | h
    · exact absurd ⟨hk, h⟩ hnot
    · simp [h]
  · simp [hk]

/-- **C4 counterexample.** The dotless key `link_props` with a plain
key-value object as value meets the claim's "document-merge" premise, but
the compiler emits a direct scalar column assignment: the merge branch
fires only for the literal key `props`. -/
theorem compileEntry_dotless_object_not_merged :
    isMergeInstr
        (compileEntry "link_props" (.obj [("url", .str "x")])) = false
      ∧ compileEntry "link_props" (.obj [("url", .str "x")])
        = .setScalar "link_props" (.obj [("url", .str "x")])
      ∧ ("link_props".toList.contains '.') = false
      ∧ jsTypeofObject (.obj [("url", .str "x")]) = true := by
  have h1 : (decide ("link_props" = "props")
      && jsTypeofObject (.obj [("url", JsonVal.str "x")])) = false := by decide
  have h2 : ("link_props".toList.contains '.') = false := by decide
  refine ⟨?_, ?_, h2, rfl⟩
  · simp [compileEntry, h1, h2, isMergeInstr]
  · simp [compileEntry, h1, h2]

/-- **C4 (amended).** Per update-map entry: the key `props` with a value
of JS type "object" compiles to the jsonb merge; any other key containing
a dot (one or more) compiles to a set-document-key on its first two
dot-segments (segments beyond the second are dropped); every remaining
key — including dotless keys with object values other than `props` —
compiles to a direct scalar column assignment. -/
theorem compileEntry_cases (k : String) (v : JsonVal) :
    (k = "props" → jsTypeofObject v = true → compileEntry k v = .mergeProps v)
      ∧ (¬(k = "props" ∧ jsTypeofObject v = true) →
          k.toList.contains '.' = true →
          compileEntry k v
            = .setDocKey ((splitOnDot k).headD "")
                (((splitOnDot k).drop 1).headD "") v)
      ∧ (¬(k = "props" ∧ jsTypeofObject v = true) →
          k.toList.contains '.' = false →
          compileEntry k v = .setScalar k v) := by
  refine ⟨?_, ?_, ?_⟩
  · intro hk hv
    simp [compileEntry, hk, hv]
  · intro hnot hd
    have hd' : '.' ∈ k.data := by simpa using hd
    simp [compileEntry, propsCond_eq_false hnot, hd']
  · intro hnot hd
    have hd' : '.' ∉ k.data := by simpa using hd
    simp [compileEntry, propsCond_eq_false hnot, hd']

/-- Witness for `compileEntry_cases` at concrete inputs: a merge for
`props`, a set-document-key on the first two segments for `a.b.c`, a
scalar assignment for `layout`. -/
theorem compileEntry_cases_witness :
    compileEntry "props" (.obj []) = .mergeProps (.obj [])
      ∧ compileEntry "a.b.c" (.str "t") = .setDocKey "a" "b" (.str "t")
      ∧ compileEntry "layout" (.str "t") = .setScalar "layout" (.str "t") := by
  refine ⟨(compileEntry_cases "props" (.obj [])).1 rfl rfl, ?_, ?_⟩
  · exact (compileEntry_cases "a.b.c" (.str "t")).2.1
      (by simp [jsTypeofObject]) (by decide)
  · exact (compileEntry_cases "layout" (.str "t")).2.2
      (by simp [jsTypeofObject]) (by decide)

/-- The clause text never depends on the value, except through the JS
`typeof value === "object"` flag consumed by the `props` branch. -/
theorem sqlOfInstr_compileEntry_congr (n : Nat) (k : String)
    (v1 v2 : JsonVal) (h : jsTypeofObject v1 = jsTypeofObject v2) :
    sqlOfInstr n (compileEntry k v1) = sqlOfInstr n (compileEntry k v2) := by
  unfold compileEntry
  rw [h]
  by_cases hp : (decide (k = "props") && jsTypeofObject v2) = true
  · simp [hp, sqlOfInstr]
  · rw [Bool.not_eq_true] at hp
    by_cases hd : '.' ∈ k.data
    · simp [hp, hd, sqlOfInstr]
    · simp [hp, hd, sqlOfInstr]

theorem setClauseStrings_congr (u1 : List (String × JsonVal)) :
    ∀ (u2 : List (String × JsonVal)) (n : Nat),
    u1.map (fun p => (p.1, jsTypeofObject p.2))
        = u2.map (fun p => (p.1, jsTypeofObject p.2)) →
    setClauseStrings n (compileUpdates u1)
      = setClauseStrings n (compileUpdates u2) := by
  induction u1 with
  | nil =>
    intro u2 n h
    cases u2 with
    | nil => rfl
    | cons hd tl => simp at h
  | cons hd tl ih =>
    intro u2 n h
    cases u2 with
    | nil => simp at h
    | cons hd2 tl2 =>
      simp only [List.map_cons, List.cons.injEq, Prod.mk.injEq] at h
      obtain ⟨⟨hk, hv⟩, htl⟩ := h
      simp only [compileUpdates, List.map_cons, setClauseStrings]
      rw [hk] at *
      rw [sqlOfInstr_compileEntry_congr n hd2.1 hd.2 hd2.2 hv]
      have := ih tl2 (n + 1) htl
      simp only [compileUpdates] at this
      rw [this]

/-- **C10 counterexample.** Two update maps with the same single key
`props` in the same order but different values (an object vs. a string)
produce different SQL texts: the merge clause versus a direct
assignment.  The SQL text is therefore not a function of the key list
alone. -/
theorem updateSqlText_differs_on_props_value :
    updateSqlText [("props", .obj [("title", .str "A")])]
        ≠ updateSqlText [("props", .str "B")]
      ∧ [("props", JsonVal.obj [("title", JsonVal.str "A")])].map Prod.fst
        = [("props", JsonVal.str "B")].map Prod.fst := by
  constructor
  · intro h
    have : updateSqlText [("props", JsonVal.obj [("title", JsonVal.str "A")])]
        = "UPDATE components SET props = COALESCE(props, \x27\x7b\x7d\x27::jsonb) || $3::jsonb WHERE client_id = $1 AND component_id = $2 RETURNING *" := by
      rfl
    have h2 : updateSqlText [("props", JsonVal.str "B")]
        = "UPDATE components SET props = $3 WHERE client_id = $1 AND component_id = $2 RETURNING *" := by
      rfl
    rw [this, h2] at h
    exact absurd h (by decide)
  · rfl

/-- **C10 (amended).** The generated SQL text splices only map keys (and
for the update path the JS object-ness of the `props` value, which picks
the merge clause); all values are passed in the bound-parameter list.
Two criteria maps with the same keys in the same order produce
character-for-character identical search SQL; two update maps with the
same keys additionally need equal `typeof value === "object"` flags for
identical update SQL (refuted otherwise by the counterexample). -/
theorem sqlText_depends_only_on_keys :
    (∀ u1 u2 : List (String × JsonVal),
        u1.map (fun p => (p.1, jsTypeofObject p.2))
          = u2.map (fun p => (p.1, jsTypeofObject p.2)) →
        updateSqlText u1 = updateSqlText u2)
      ∧ (∀ c1 c2 : List (String × String),
          c1.map Prod.fst = c2.map Prod.fst →
          searchSqlText c1 = searchSqlText c2)
      ∧ (∀ clientId c,
          searchSqlParams clientId c = clientId :: c.map Prod.snd)
      ∧ (∀ cid coid u, updateSqlParams cid coid u
          = .strParam cid :: .strParam coid
            :: (compileUpdates u).map paramOfInstr) := by
  refine ⟨?_, ?_, fun _ _ => rfl, fun _ _ _ => rfl⟩
  · intro u1 u2 h
    unfold updateSqlText
    rw [setClauseStrings_congr u1 u2 3 h]
  · intro c1 c2 h
    unfold searchSqlText
    have : searchClauses c1 = searchClauses c2 := by
      unfold searchClauses
      calc c1.map (fun p => clauseForCriterion p.1)
          = (c1.map Prod.fst).map clauseForCriterion := by
            rw [List.map_map]; rfl
        _ = (c2.map Prod.fst).map clauseForCriterion := by rw [h]
        _ = c2.map (fun p => clauseForCriterion p.1) := by
            rw [List.map_map]; rfl
    rw [this]

/-- Witness for `sqlText_depends_only_on_keys`: same keys and flags,
different values — identical SQL for both the update and the search. -/
theorem sqlText_depends_only_on_keys_witness :
    updateSqlText [("props", .obj [("a", .str "1")]), ("layout", .str "x")]
        = updateSqlText [("props", .obj []), ("layout", .str "y")]
      ∧ searchSqlText [("component_type", "card"), ("props.title", "Home")]
        = searchSqlText [("component_type", "banner"), ("props.title", "Work")] := by
  constructor
  · exact sqlText_depends_only_on_keys.1
      [("props", .obj [("a", .str "1")]), ("layout", .str "x")]
      [("props", .obj []), ("layout", .str "y")] rfl
  · exact sqlText_depends_only_on_keys.2.1
      [("component_type", "card"), ("props.title", "Home")]
      [("component_type", "banner"), ("props.title", "Work")] rfl

/-- **C5 counterexample.** For the non-dotted key `title`, the translator
emits an `ILIKE` predicate whose pattern is the verbatim value, not a
substring test: on a row whose `title` text is "My Home", the value
"home" is a case-insensitive substring (`containsCISpec` is true, as the
claim's "contains" predicate requires), yet the compiled predicate
evaluates to false, because `ILIKE` without `%` wildcards must match the
whole string. -/
theorem searchClause_title_not_contains :
    clauseForCriterion "title" = .ilikeCol "title"
      ∧ evalSearchClause ⟨[("title", "My Home")], []⟩ "home"
          (SearchClause.ilikeCol "title") = false
      ∧ containsCISpec "home" "My Home" = true := by
  refine ⟨rfl, by decide, by decide⟩

/-- **C5 (amended).** The criteria translation: a dotted key filters the
named JSON sub-key of its first segment by equality; the key
`component_type` translates to exact equality; every other non-dotted
key translates to a case-insensitive `ILIKE` pattern match of the whole
column text against the verbatim value — substring semantics only when
the value itself carries `%` wildcards, not by default. -/
theorem searchComponent_criteria_translation (k value : String) :
    (k.toList.contains '.' = true →
        clauseForCriterion k
          = .jsonEq ((splitOnDot k).headD "")
              (((splitOnDot k).drop 1).headD ""))
      ∧ (k.toList.contains '.' = false → k = "component_type" →
          clauseForCriterion k = .eqCol k)
      ∧ (k.toList.contains '.' = false → k ≠ "component_type" →
          clauseForCriterion k = .ilikeCol k)
      ∧ (∀ r : Row, ∀ t : String, alookup r.scalars k = some t →
          evalSearchClause r value (.ilikeCol k) = ilikeMatches value t)
      ∧ (∀ r : Row, ∀ t : String, alookup r.scalars k = some t →
          evalSearchClause r value (.eqCol k) = (t == value)) := by
  refine ⟨?_, ?_, ?_, ?_, ?_⟩
  · intro hd
    have hd' : '.' ∈ k.data := by simpa using hd
    simp [clauseForCriterion, hd']
  · intro hd hk
    have hd' : '.' ∉ k.data := by simpa using hd
    simp [clauseForCriterion, hd', hk]
  · intro hd hk
    have hd' : '.' ∉ k.data := by simpa using hd
    simp [clauseForCriterion, hd', hk]
  · intro r t ht
    simp [evalSearchClause, ht]
  · intro r t ht
    simp only [evalSearchClause, ht]
    rcases eq_or_ne t value with h | h
    · simp [h]
    · simp [h, fun hh => h (hh : t = value)]

/-- Witness for `searchComponent_criteria_translation` at concrete
inputs: the three translation branches and the ILIKE evaluation. -/
theorem searchComponent_criteria_translation_witness :
    clauseForCriterion "props.title" = .jsonEq "props" "title"
      ∧ clauseForCriterion "component_type" = .eqCol "component_type"
      ∧ clauseForCriterion "title" = .ilikeCol "title"
      ∧ evalSearchClause ⟨[("title", "Home")], []⟩ "hOmE"
          (SearchClause.ilikeCol "title") = ilikeMatches "hOmE" "Home" := by
  refine ⟨?_, ?_, ?_, ?_⟩
  · exact (searchComponent_criteria_translation "props.title" "x").1 (by decide)
  · exact (searchComponent_criteria_translation "component_type" "x").2.1
      (by decide) rfl
  · exact (searchComponent_criteria_translation "title" "x").2.2.1
      (by decide) (by decide)
  · exact (searchComponent_criteria_translation "title" "hOmE").2.2.2.1
      ⟨[("title", "Home")], []⟩ "Home" (by simp [alookup])

/-- **C2.** Whenever the dispatcher stores a new pending operation it
stores `extractOperationDetails(message)` — whose candidate list is
ALWAYS the empty list, never of length greater than one: the stored
state immediately violates the claimed invariant, and since the
selection branch requires `componentIds.length > 1`, such a stored
pending operation can never be selected from or cleared.  The source's
own comment says the list "Will be populated by clarifier", but no code
populates it. -/
theorem extractOperationDetails_componentIds_empty :
    (∀ text : String, (extractOperationDetails text).componentIds = []
        ∧ inAwaitingSelection (some (extractOperationDetails text)) = false)
      ∧ (extractOperationDetails
          "update the title to Home for client 6").componentIds.length = 0
      ∧ (extractOperationDetails
          "update the title to Home for client 6").clientId = some "6"
      ∧ (extractOperationDetails
          "update the title to Home for client 6").operation = "update" := by
  refine ⟨fun text => ⟨rfl, rfl⟩, rfl, by decide, by decide⟩

/-- **C3.** In the awaiting-selection state (pending operation with more
than one candidate): a message whose `parseInt` is a 1-based index `j`
with `1 ≤ j ≤ length` makes the step invoke the editor on candidate
`j - 1` and return a cleared (`none`) pending operation; a parsed number
out of range, or an unparsable (`NaN`) message, returns the
invalid-selection reply with the pending operation unchanged. -/
theorem selectionStep_cases (p : PendingOp) (msg : String)
    (_hlen : 1 < p.componentIds.length) :
    (∀ j : Nat, parseIntJS (jsTrim msg) = some (j : Int) →
        1 ≤ j → j ≤ p.componentIds.length →
        selectionStep p msg
          = (.applied (p.componentIds.getD (j - 1) ""), none))
      ∧ (∀ n : Int, parseIntJS (jsTrim msg) = some n →
          (n < 1 ∨ (p.componentIds.length : Int) < n) →
          selectionStep p msg = (.invalid invalidSelectionReply, some p))
      ∧ (parseIntJS (jsTrim msg) = none →
          selectionStep p msg = (.invalid invalidSelectionReply, some p)) := by
  refine ⟨?_, ?_, ?_⟩
  · intro j hparse hj1 hj2
    have hrange : (0 : Int) ≤ (j : Int) - 1
        ∧ (j : Int) - 1 < (p.componentIds.length : Int) := by
      constructor <;> omega
    have htn : ((j : Int) - 1).toNat = j - 1 := by omega
    simp only [selectionStep, hparse]
    rw [if_pos hrange, htn]
  · intro n hparse hout
    have hrange : ¬((0 : Int) ≤ n - 1
        ∧ n - 1 < (p.componentIds.length : Int)) := by omega
    simp only [selectionStep, hparse]
    rw [if_neg hrange]
  · intro hparse
    simp [selectionStep, hparse]

/-- Witness for `selectionStep_cases` with three candidates: message "2"
resolves candidate "b" and clears the pending operation; message "7" is
out of range and keeps it; message "pick one" does not parse and keeps
it. -/
theorem selectionStep_cases_witness :
    selectionStep ⟨some "6", "update", [], ["a", "b", "c"]⟩ "2"
        = (.applied "b", none)
      ∧ selectionStep ⟨some "6", "update", [], ["a", "b", "c"]⟩ "7"
        = (.invalid invalidSelectionReply,
           some ⟨some "6", "update", [], ["a", "b", "c"]⟩)
      ∧ selectionStep ⟨some "6", "update", [], ["a", "b", "c"]⟩ "pick one"
        = (.invalid invalidSelectionReply,
           some ⟨some "6", "update", [], ["a", "b", "c"]⟩) := by
  refine ⟨?_, ?_, ?_⟩
  · exact (selectionStep_cases ⟨some "6", "update", [], ["a", "b", "c"]⟩ "2"
      (by decide)).1 2 (by decide) (by decide) (by decide)
  · exact (selectionStep_cases ⟨some "6", "update", [], ["a", "b", "c"]⟩ "7"
      (by decide)).2.1 7 (by decide) (by decide)
  · exact (selectionStep_cases ⟨some "6", "update", [], ["a", "b", "c"]⟩
      "pick one" (by decide)).2.2 (by decide)

/-- **C6.** Compiling the canonical-path update `card_design.radius =
"full"` through the design pipeline — any raw key the field resolver maps
to the canonical path "card_design.radius" (e.g. the exact table entry
"card radius") — yields exactly one merge instruction on the
`card_design` column carrying the one-key patch; applying that single
UPDATE clause to any stored row whose `card_design` document is `doc`
sets `radius` to "full", leaves every other key of `doc` unchanged
(shallow merge, not replacement), and leaves every other column of the
row unchanged. -/
theorem designUpdate_card_radius_round_trip
    (fuzzy : String → Option String) (k : String)
    (hres : resolveDesignKey fuzzy k = some "card_design.radius") :
    sanitizeDesignUpdates fuzzy [(k, .str "full")]
        = [("card_design", .obj [("radius", .str "full")])]
      ∧ updateDesign [("card_design", .obj [("radius", .str "full")])]
        = .ok [("card_design", .obj [("radius", .str "full")])]
      ∧ ∀ (row doc : List (String × JsonVal)),
          alookup row "card_design" = some (.obj doc) →
          alookup (applyDesignWrite row
              [("card_design", .obj [("radius", .str "full")])]) "card_design"
              = some (.obj (ainsert doc "radius" (.str "full")))
            ∧ alookup (ainsert doc "radius" (.str "full")) "radius"
              = some (.str "full")
            ∧ (∀ key, key ≠ "radius" →
                alookup (ainsert doc "radius" (.str "full")) key
                  = alookup doc key)
            ∧ (∀ col, col ≠ "card_design" →
                alookup (applyDesignWrite row
                  [("card_design", .obj [("radius", .str "full")])]) col
                = alookup row col) := by
  refine ⟨?_, rfl, ?_⟩
  · simp only [sanitizeDesignUpdates, List.foldl, sanitizeDesignStep, hres]
    rfl
  · intro row doc hdoc
    have happ : applyDesignWrite row
        [("card_design", .obj [("radius", .str "full")])]
        = ainsert row "card_design"
            (.obj (ainsert doc "radius" (.str "full"))) := by
      simp [applyDesignWrite, applyDesignInstr, hdoc, objFields, jsonbConcat]
    refine ⟨?_, alookup_ainsert_self _ _ _, ?_, ?_⟩
    · rw [happ]
      exact alookup_ainsert_self _ _ _
    · intro key hk
      exact alookup_ainsert_ne _ _ _ _ hk
    · intro col hc
      rw [happ]
      exact alookup_ainsert_ne _ _ _ _ hc

/-- Witness for `designUpdate_card_radius_round_trip`: the exact synonym
"card radius" resolves to the canonical path with no fuzzy help, and the
merge on a concrete document keeps its `style` key. -/
theorem designUpdate_card_radius_round_trip_witness :
    sanitizeDesignUpdates (fun _ => none) [("card radius", JsonVal.str "full")]
        = [("card_design", .obj [("radius", .str "full")])]
      ∧ alookup (ainsert [("style", JsonVal.str "solid")] "radius"
          (.str "full")) "radius" = some (.str "full")
      ∧ alookup (ainsert [("style", JsonVal.str "solid")] "radius"
          (.str "full")) "style"
        = alookup [("style", JsonVal.str "solid")] "style" := by
  have h := designUpdate_card_radius_round_trip (fun _ => none)
    "card radius" rfl
  have h3 := h.2.2 [("card_design", .obj [("style", .str "solid")])]
    [("style", .str "solid")] (by simp [alookup])
  exact ⟨h.1, h3.2.1, h3.2.2.1 "style" (by decide)⟩

/-- **C7 counterexample.** Attaching the security group "vip" (already
attached to component "c1") returns `success = false` with the distinct
"already exists" error — not a success outcome reporting the tag still
present — though it does leave the attachment table without a
duplicate. -/
theorem addSecurityGroup_attached_is_failure :
    (addSecurityGroup
        ⟨[("6", "vip", "g1")], [("c1", "g1")], [("c1", true)]⟩
        "6" "c1" "vip").1.success = false
      ∧ (addSecurityGroup
          ⟨[("6", "vip", "g1")], [("c1", "g1")], [("c1", true)]⟩
          "6" "c1" "vip").1.error
        = some "Security group already exists for this component"
      ∧ (addSecurityGroup
          ⟨[("6", "vip", "g1")], [("c1", "g1")], [("c1", true)]⟩
          "6" "c1" "vip").2.csg = [("c1", "g1")] :=
  ⟨rfl, rfl, rfl⟩

/-- **C7 (amended).** Attaching a security group that is already attached
returns a distinct FAILURE outcome ("Security group already exists for
this component") and leaves the whole store unchanged (no duplicate
attachment row); detaching a group that is not attached returns the
distinct "does not exist for this component" failure outcome, not a
silent success, and also leaves the store unchanged. -/
theorem securityGroup_attach_detach_edge_cases
    (st : SecurityStore) (clientId componentId title gid : String)
    (hc : clientId ≠ "") (hm : componentId ≠ "") (ht : title ≠ "")
    (hgid : getSecurityGroupId st title clientId = some gid) :
    ((componentId, gid) ∈ st.csg →
        (addSecurityGroup st clientId componentId title).1.success = false
          ∧ (addSecurityGroup st clientId componentId title).1.error
            = some "Security group already exists for this component"
          ∧ (addSecurityGroup st clientId componentId title).2 = st)
      ∧ ((componentId, gid) ∉ st.csg →
          (removeSecurityGroup st clientId componentId title).1.success = false
            ∧ (removeSecurityGroup st clientId componentId title).1.error
              = some "Security group does not exist for this component"
            ∧ (removeSecurityGroup st clientId componentId title).2 = st) := by
  constructor
  · intro hin
    simp [addSecurityGroup, hc, hm, ht, hgid, hin]
  · intro hout
    simp [removeSecurityGroup, hc, hm, ht, hgid, hout]

/-- Witness for `securityGroup_attach_detach_edge_cases`: a store where
"vip" is attached to "c1" (attach is a no-op failure) and one where it is
not (detach is a no-op failure). -/
theorem securityGroup_attach_detach_edge_cases_witness :
    (addSecurityGroup ⟨[("6", "vip", "g1")], [("c1", "g1")], []⟩
        "6" "c1" "vip").2
      = ⟨[("6", "vip", "g1")], [("c1", "g1")], []⟩
      ∧ (removeSecurityGroup ⟨[("6", "vip", "g1")], [], []⟩
          "6" "c1" "vip").1.error
        = some "Security group does not exist for this component" := by
  constructor
  · exact ((securityGroup_attach_detach_edge_cases
      ⟨[("6", "vip", "g1")], [("c1", "g1")], []⟩
      "6" "c1" "vip" "g1" (by decide) (by decide) (by decide) rfl).1
      (by decide)).2.2
  · exact ((securityGroup_attach_detach_edge_cases
      ⟨[("6", "vip", "g1")], [], []⟩
      "6" "c1" "vip" "g1" (by decide) (by decide) (by decide) rfl).2
      (by decide)).2.1

/-- One resolution step of `normalizeCriteria` always inserts, so it
never loses an existing key. -/
theorem normalizeCriteriaStep_keeps_keys (fuzzy : String → Option String)
    (acc : List (String × String)) (p : String × String) (k : String)
    (hk : k ∈ acc.map Prod.fst) :
    k ∈ (normalizeCriteriaStep fuzzy acc p).map Prod.fst := by
  unfold normalizeCriteriaStep
  cases fuzzy (jsToLower p.1) with
  | some c => exact mem_keys_ainsert _ _ _ _ hk
  | none => exact mem_keys_ainsert _ _ _ _ hk

theorem normalizeCriteria_foldl_keeps (fuzzy : String → Option String)
    (l : List (String × String)) :
    ∀ (acc : List (String × String)) (k : String),
    k ∈ acc.map Prod.fst →
    k ∈ (l.foldl (normalizeCriteriaStep fuzzy) acc).map Prod.fst := by
  induction l with
  | nil => intro acc k h; simpa using h
  | cons hd tl ih =>
    intro acc k h
    exact ih _ _ (normalizeCriteriaStep_keeps_keys fuzzy acc hd k h)

theorem editorNormalizeStep_keeps_keys (fuzzy : String → Option String)
    (acc : List (String × JsonVal)) (p : String × JsonVal) (k : String)
    (hk : k ∈ acc.map Prod.fst) :
    k ∈ (editorNormalizeStep fuzzy acc p).map Prod.fst := by
  unfold editorNormalizeStep
  cases fuzzy (jsToLower p.1) with
  | some c => exact mem_keys_ainsert _ _ _ _ hk
  | none => exact mem_keys_ainsert _ _ _ _ hk

theorem editorNormalize_foldl_keeps (fuzzy : String → Option String)
    (l : List (String × JsonVal)) :
    ∀ (acc : List (String × JsonVal)) (k : String),
    k ∈ acc.map Prod.fst →
    k ∈ (l.foldl (editorNormalizeStep fuzzy) acc).map Prod.fst := by
  induction l with
  | nil => intro acc k h; simpa using h
  | cons hd tl ih =>
    intro acc k h
    exact ih _ _ (editorNormalizeStep_keeps_keys fuzzy acc hd k h)

/-- **C8 counterexample.** The design-schema resolver silently DROPS an
unresolved key instead of carrying it forward: the raw key "zzz" is
neither in `designUpdateFieldMap` nor fuzzy-matchable (no key of the
table shares a character with it, so the threshold-0.3 Fuse search
returns nothing, modelled by the matcher returning `none`), and the
whole update map vanishes. -/
theorem designSanitize_drops_unresolved :
    sanitizeDesignUpdates (fun _ => none) [("zzz", JsonVal.str "v")] = []
      ∧ alookup designUpdateFieldMap "zzz" = none :=
  ⟨rfl, rfl⟩

/-- **C8 (amended).** A raw key that neither matches the synonym table
nor comes within the fuzzy threshold is carried forward unchanged (with
a warning) by BOTH record-schema resolvers — the clarifier's criteria
normalization and the editor's update normalization — but it is silently
dropped by the design-schema sanitizer, whose output is as if the entry
had never been present. -/
theorem unresolvedKey_passthrough_vs_drop
    (fuzzyRec fuzzyDesign : String → Option String) (k : String)
    (hrec : fuzzyRec (jsToLower k) = none)
    (hdesign : resolveDesignKey fuzzyDesign k = none) :
    (∀ (raw1 raw2 : List (String × String)) (v : String),
        k ∈ (normalizeCriteria fuzzyRec
          (raw1 ++ (k, v) :: raw2)).map Prod.fst)
      ∧ (∀ (raw1 raw2 : List (String × JsonVal)) (v : JsonVal),
          k ∈ (editorNormalizeUpdates fuzzyRec
            (raw1 ++ (k, v) :: raw2)).map Prod.fst)
      ∧ (∀ (rest : List (String × JsonVal)) (v : JsonVal),
          sanitizeDesignUpdates fuzzyDesign ((k, v) :: rest)
            = sanitizeDesignUpdates fuzzyDesign rest) := by
  refine ⟨?_, ?_, ?_⟩
  · intro raw1 raw2 v
    unfold normalizeCriteria
    rw [List.foldl_append, List.foldl_cons]
    apply normalizeCriteria_foldl_keeps
    show k ∈ (normalizeCriteriaStep fuzzyRec _ (k, v)).map Prod.fst
    unfold normalizeCriteriaStep
    rw [hrec]
    exact mem_keys_ainsert_self _ _ _
  · intro raw1 raw2 v
    unfold editorNormalizeUpdates
    rw [List.foldl_append, List.foldl_cons]
    apply editorNormalize_foldl_keeps
    show k ∈ (editorNormalizeStep fuzzyRec _ (k, v)).map Prod.fst
    unfold editorNormalizeStep
    rw [hrec]
    exact mem_keys_ainsert_self _ _ _
  · intro rest v
    simp [sanitizeDesignUpdates, List.foldl_cons, sanitizeDesignStep, hdesign]

/-- Witness for `unresolvedKey_passthrough_vs_drop` at the unresolvable
key "zzz": both record resolvers keep it, the design sanitizer drops
it. -/
theorem unresolvedKey_passthrough_vs_drop_witness :
    "zzz" ∈ (normalizeCriteria (fun _ => none)
        [("component_type", "card"), ("zzz", "v")]).map Prod.fst
      ∧ "zzz" ∈ (editorNormalizeUpdates (fun _ => none)
          [("zzz", JsonVal.str "v")]).map Prod.fst
      ∧ sanitizeDesignUpdates (fun _ => none)
          [("zzz", JsonVal.str "v"), ("card radius", JsonVal.str "full")]
        = sanitizeDesignUpdates (fun _ => none)
          [("card radius", JsonVal.str "full")] := by
  have h := unresolvedKey_passthrough_vs_drop (fun _ => none) (fun _ => none)
    "zzz" rfl rfl
  exact ⟨h.1 [("component_type", "card")] [] "v",
         h.2.1 [] [] (JsonVal.str "v"),
         h.2.2 [("card radius", JsonVal.str "full")] (JsonVal.str "v")⟩

/-- Discriminator for update tool calls. -/
def isUpdateToolCall : DesignToolCall → Bool
  | .updateDesign _ _ => true
  | _ => false

/-- **C9 counterexample.** A state whose last (and only) message carries
an `updateDesign` tool call and whose history contains NO affirmative
user turn: the tool node still performs the write (one store write, not
zero) and produces no rejection — the confirmation protocol exists only
in the prompt text, not in code. -/
theorem designUpdate_write_without_confirmation :
    hasConfirmedTurn
        [⟨"ai", "", [.updateDesign "6"
          [("header_design", .obj [("social-icon-style", .str "solid")])]]⟩]
      = false
      ∧ designWriteCount (callDesignTools
          [⟨"ai", "", [.updateDesign "6"
            [("header_design", .obj [("social-icon-style", .str "solid")])]]⟩])
        = 1 :=
  ⟨rfl, rfl⟩

theorem designWriteCount_map (l : List DesignToolCall) :
    designWriteCount (l.map effectOfToolCall)
      = (l.filter isUpdateToolCall).length := by
  induction l with
  | nil => rfl
  | cons hd tl ih =>
    cases hd with
    | getClientDesign c =>
      simpa [designWriteCount, effectOfToolCall, isUpdateToolCall,
        List.filter] using ih
    | updateDesign c u =>
      simpa [designWriteCount, effectOfToolCall, isUpdateToolCall,
        List.filter] using ih
    | getQAForClient c =>
      simpa [designWriteCount, effectOfToolCall, isUpdateToolCall,
        List.filter] using ih
    | other n =>
      simpa [designWriteCount, effectOfToolCall, isUpdateToolCall,
        List.filter] using ih

/-- **C9 (amended).** The design tool node executes tool calls
unconditionally: its output depends only on the LAST message's tool
calls (the history — and hence any confirmation turn — is ignored), every
`updateDesign` tool call is executed the moment it arrives, and the
number of store writes equals the number of `updateDesign` tool calls on
that last message, whether or not a confirmed turn precedes. -/
theorem callDesignTools_unconditional (messages : List AgentMessage) :
    callDesignTools messages
        = (((messages.getLast?).map AgentMessage.toolCalls).getD []).map
            effectOfToolCall
      ∧ (∀ (earlier : List AgentMessage) (m : AgentMessage),
          callDesignTools (earlier ++ [m])
            = m.toolCalls.map effectOfToolCall)
      ∧ designWriteCount (callDesignTools messages)
        = ((((messages.getLast?).map AgentMessage.toolCalls).getD []).filter
            isUpdateToolCall).length := by
  refine ⟨rfl, ?_, ?_⟩
  · intro earlier m
    unfold callDesignTools
    rw [List.getLast?_append]
    rfl
  · unfold callDesignTools
    exact designWriteCount_map _
